/-
Verification of the setup-code decoder and SVG pairing-badge renderer of
`src/src/Main.c` (HomeKit pairing badge firmware glue).

Shallow embedding conventions:
* C strings are embedded as `List Char` (NUL-free, as produced by the
  surrounding firmware); `strlen` becomes `List.length`, `strncmp` against a
  literal becomes `List.take` equality.
* `base36ToLong` accumulates `value * pow(36, i)` through C `double`
  arithmetic into a `uint64_t`.  On every domain quantified below all
  intermediate values are nonnegative and below `2 ^ 53`, where IEEE double
  arithmetic on integers is exact, so the embedding uses exact integer
  arithmetic; the final `uint64_t` range is reflected by reduction mod
  `2 ^ 64`.
* The output sink (`struct mg_connection`, written through `mg_printf`) is
  embedded as the list of emitted chunks, one list element per `mg_printf`
  call: static template strings verbatim, the code-text element as its two
  formatted halves, and each per-module QR sub-path as the drawing commands
  denoted by the format string `"M%.3f,%.3fh%.3fv%.3fh-%.3fz"`.  Coordinates
  are exact rationals; `%.3f` rounding of the printed decimal text is below
  this abstraction.
* The external QR generator (`qrcode_initText` of the qrcode library) is an
  external collaborator: the renderer is parameterised by the produced
  matrix, of which the code reads only `size` and per-cell module state
  (`qrcode_getModule`).
-/
import Mathlib

namespace HomekitBadge

/-- One character of a base-36 token, as mapped by the body of the
`while` loop of `base36ToLong` (Main.c lines 96-102): characters with
ordinal above `'9'` (0x39) are treated `'A'`-relative, the rest
`'0'`-relative.  The C `int value` may be negative for sub-`'0'`
characters, hence `Int`. -/
def base36DigitValue (c : Char) : Int :=
  if c.toNat > 0x39 then (c.toNat : Int) - 65 + 10 else (c.toNat : Int) - 48

/-- The accumulation loop of `base36ToLong` (Main.c lines 93-106): the
argument list is the input string reversed, so the head is the least
significant character, weighted `36 ^ i`. -/
def base36Loop : List Char → Nat → Int
  | [], _ => 0
  | c :: rest, i => base36DigitValue c * 36 ^ i + base36Loop rest (i + 1)

/-- `base36ToLong` (Main.c lines 87-108): decode a base-36 string, most
significant character first, into the `uint64_t` result. -/
def base36ToLong (base36String : List Char) : Nat :=
  (base36Loop base36String.reverse 0 % (2 ^ 64 : Int)).toNat

/-- `codeFromSetupPayload` (Main.c lines 112-130): validate that the payload
is exactly 20 characters long and starts with `"X-HM://"`, copy the 9
characters after the prefix into `setupCode`, decode them base-36 and mask
with `0x7ffffff`; otherwise return 0. -/
def codeFromSetupPayload (setupPayload : List Char) : Nat :=
  if setupPayload.length = 20 ∧ setupPayload.take 7 = "X-HM://".toList then
    base36ToLong ((setupPayload.drop 7).take 9) &&& 0x7ffffff
  else 0

/-- Spec-side digit map ("`'0'-'9'` to 0-9 and, for any character with
ordinal greater than `'9'`, 10 + (char - `'A'`)"), for comparison with the
source-side `base36DigitValue`. -/
def specBase36Digit (c : Char) : Nat :=
  if c.toNat > 0x39 then c.toNat - 65 + 10 else c.toNat - 48

/-- Spec-side value of a base-36 digit string, most significant first: the
usual Horner evaluation ("the unsigned integer value of the string
interpreted in base 36"). -/
def specBase36Value (s : List Char) : Nat :=
  s.foldl (fun acc c => acc * 36 + specBase36Digit c) 0

/-- A character the claims call a base-36 digit: `'0'`-`'9'` (ordinals
48-57) or `'A'`-`'Z'` (ordinals 65-90). -/
def isBase36Digit (c : Char) : Prop :=
  (48 ≤ c.toNat ∧ c.toNat ≤ 57) ∨ (65 ≤ c.toNat ∧ c.toNat ≤ 90)

instance (c : Char) : Decidable (isBase36Digit c) := by
  unfold isBase36Digit; infer_instance

/-! ## Badge renderer embedding -/

/-- The QR matrix produced by the external qrcode library
(`qrcode_initText`): the renderer reads only `size` and per-cell module
state (`qrcode_getModule`). -/
structure QRCode where
  size : Nat
  getModule : Nat → Nat → Bool

/-- SVG path-data commands, the denotation of the per-module format string
`"M%.3f,%.3fh%.3fv%.3fh-%.3fz"` of `qrcodeSVGPath` (Main.c lines 155-163):
absolute move, relative horizontal line, relative vertical line, close. -/
inductive PathCmd where
  | moveTo (x y : ℚ) : PathCmd
  | hLineRel (d : ℚ) : PathCmd
  | vLineRel (d : ℚ) : PathCmd
  | closePath : PathCmd
deriving DecidableEq

/-- One chunk of sink output, one list element per `mg_printf` call:
 * `lit s` — a static template string emitted verbatim;
 * `codeText h1 h2` — the `<text>` element carrying the two code halves
   (the format `codeTextFmtLit` with its two `%s` holes filled);
 * `pathCmds cs` — one per-module QR sub-path, as drawing commands. -/
inductive SVGChunk where
  | lit (s : String) : SVGChunk
  | codeText (firstHalf secondHalf : List Char) : SVGChunk
  | pathCmds (cs : List PathCmd) : SVGChunk
deriving DecidableEq

def xmlHeaderLit : String :=
  "<?xml version=\"1.0\" encoding=\"utf-8\"?>"

def svgOpenLit : String :=
  "<svg version=\"1.1\" id=\"homekit-badge\" xmlns=\"http://www.w3.org/2000/svg\" xmlns:xlink=\"http://www.w3.org/1999/xlink\" x=\"0px\" y=\"0px\" viewBox=\"0 0 180 250\" style=\"enable-background:new 0 0 180 250;\" xml:space=\"preserve\">"

def styleLit : String :=
  "<style type=\"text/css\">.st0\x7bfill:#FFFFFF;stroke:#221E1F;stroke-width:5;\x7d.st1\x7bfill:#221E1F;stroke:#221E1F\x7d.st2\x7bfill:#FFFFFF;\x7d</style>"

def cardRectLit : String :=
  "<g><rect x=\"2.5\" y=\"2.5\" width=\"180\" height=\"245\" rx=\"20\" ry=\"20\" class=\"st0\" />"

def logoPath1Lit : String :=
  "<g><path id=\"_Compound_Path_1_1_\" class=\"st1\" d=\"M69.5,31l-6.6-5.3v-9.4c0-0.7-0.3-0.9-0.8-0.9h-4.2c-0.6,0-0.9,0.1-0.9,0.9v4.8l0,0L41,8.5c-0.4-0.4-0.9-0.6-1.4-0.6c-0.5,0-1,0.2-1.4,0.6L9.7,31c-1,0.8-0.7,1.9,0.4,1.9h5.3v28.6c0,1.9,0.7,2.6,2.5,2.6h43.4c1.8,0,2.5-0.7,2.5-2.6V32.9h5.3C70.2,32.9,70.5,31.8,69.5,31z M60.3,58.1c0.2,1.1-0.6,2.1-1.6,2.2c-0.1,0-0.3,0-0.4,0H20.9c-1.1,0.1-2-0.7-2.1-1.8c0-0.1,0-0.3,0-0.4V30.4c0-1.3,0.5-2.5,1.5-3.3l18-14c0.3-0.3,0.8-0.5,1.3-0.5c0.5,0,0.9,0.2,1.3,0.5l18,14c1,0.8,1.5,2,1.5,3.3V58.1z\"/>"

def logoPath2Lit : String :=
  "<path id=\"_Compound_Path_2_1_\" class=\"st1\" d=\"M53.1,30.4l-12.6-10c-0.3-0.2-0.6-0.4-1-0.4c-0.4,0-0.7,0.1-1,0.4L26,30.4c-0.7,0.5-1.1,1.4-1,2.3v19.9c-0.1,0.8,0.5,1.5,1.3,1.6c0.1,0,0.2,0,0.3,0h26c0.8,0.1,1.5-0.5,1.6-1.3c0-0.1,0-0.2,0-0.3V32.8C54.3,31.9,53.9,31,53.1,30.4z M50.6,49.2c0.1,0.6-0.3,1.2-1,1.3c-0.1,0-0.2,0-0.3,0H29.8c-0.6,0.1-1.2-0.4-1.3-1.1c0-0.1,0-0.2,0-0.3V34.1c-0.1-0.7,0.2-1.4,0.7-1.8l9.5-7.5c0.2-0.2,0.5-0.3,0.8-0.3c0.3,0,0.6,0.1,0.8,0.3c0.3,0.2,9,7.1,9.4,7.5c0.6,0.4,0.8,1.1,0.7,1.8V49.2z\"/>"

def logoPath3Lit : String :=
  "<path id=\"_Compound_Path_3_1_\" class=\"st1\" d=\"M40.1,31.3c-0.2-0.1-0.3-0.2-0.5-0.2c-0.2,0-0.4,0.1-0.5,0.2c-0.2,0.1-4.8,3.6-5,3.8c-0.4,0.3-0.6,0.8-0.6,1.2v8.5c0,0.7,0.4,0.8,0.8,0.8h10.5c0.5,0,0.8-0.2,0.8-0.8v-8.5c0-0.5-0.2-0.9-0.6-1.2C44.9,34.9,40.3,31.4,40.1,31.3z M42.1,41.7c0,0.3-0.1,0.4-0.3,0.4h-4.3c-0.2,0-0.3-0.1-0.3-0.4v-4c0-0.2,0.1-0.4,0.2-0.5l2-1.6c0.1-0.1,0.1-0.1,0.2-0.1c0.1,0,0.2,0,0.2,0.1l2,1.6c0.2,0.1,0.2,0.3,0.2,0.5L42.1,41.7z\"/></g>"

def codeTextFmtLit : String :=
  "<text x=\"75.5\" y=\"29.5\" font-family=\"SF Mono, Menlo, monospace\" font-weight=\"bold\" letter-spacing=\"8\" font-size=\"28\" class=\"st1\"><tspan x=\"75.5\" y=\"29.5\">%s</tspan><tspan x=\"75.5\" y=\"52\">%s</tspan></text>"

def qrBackdropLit : String :=
  "<rect x=\"10\" y=\"74\" class=\"st2\" width=\"165\" height=\"165\"/>"

def svgCloseLit : String :=
  "</g></svg>"

/-- `qrcodeSVGPath` (Main.c lines 138-170): emit `<path d="`, then for each
row `y` and column `x` (row-major) of the matrix, if the module is set, one
square sub-path `M x,y h scale v scale h -scale z` at the scaled, border-
shifted cell origin; finally `"/>`.  Coordinates are exact rationals (the C
`float` arithmetic and `%.3f` formatting are below this abstraction). -/
def qrcodeSVGPath (qrcode : QRCode) (x_offset y_offset width : ℚ) :
    List SVGChunk :=
  let border : ℚ := 1
  let scale : ℚ := width / ((qrcode.size : ℚ) + 2 * border)
  let offsetX : ℚ := x_offset + border * scale
  let offsetY : ℚ := y_offset + border * scale
  [SVGChunk.lit "<path d=\""]
    ++ ((List.range qrcode.size).flatMap fun y =>
          (List.range qrcode.size).flatMap fun x =>
            if qrcode.getModule x y then
              [SVGChunk.pathCmds
                [PathCmd.moveTo (offsetX + scale * x) (offsetY + scale * y),
                 PathCmd.hLineRel scale, PathCmd.vLineRel scale,
                 PathCmd.hLineRel (-scale), PathCmd.closePath]]
            else [])
    ++ [SVGChunk.lit "\"/>"]

/-- `SVGBadgeFromSetupPayload` (Main.c lines 174-257): validate the payload
(length 20, prefix `"X-HM://"`), extract the code, abort if it exceeds
99999999, otherwise emit the badge: XML header, SVG root, style, card
rectangle, the three logo paths, the code text (the code printed `"%llu"`
into a 9-byte buffer — plain decimal, `snprintf`-truncated to 8 characters —
then split by two fixed-width 4-character copies, the second starting at
offset 4), the white QR backdrop, the QR path for the externally generated
matrix at box (10, 74, width 165), and the closing tags. -/
def SVGBadgeFromSetupPayload (setupPayload : List Char) (qrcode : QRCode) :
    List SVGChunk :=
  if setupPayload.length = 20 ∧ setupPayload.take 7 = "X-HM://".toList then
    let code := codeFromSetupPayload setupPayload
    if code > 99999999 then []
    else
      let codeString := (Nat.repr code).toList.take 8
      let codeFirstHalf := codeString.take 4
      let codeSecondHalf := (codeString.drop 4).take 4
      [SVGChunk.lit xmlHeaderLit, SVGChunk.lit svgOpenLit,
       SVGChunk.lit styleLit, SVGChunk.lit cardRectLit,
       SVGChunk.lit logoPath1Lit, SVGChunk.lit logoPath2Lit,
       SVGChunk.lit logoPath3Lit,
       SVGChunk.codeText codeFirstHalf codeSecondHalf,
       SVGChunk.lit qrBackdropLit]
        ++ qrcodeSVGPath qrcode 10 74 165
        ++ [SVGChunk.lit svgCloseLit]
  else []

/-- The "on" modules of a matrix in row-major order (all columns of row 0,
then row 1, ...), as (x, y) pairs. -/
def onModulesRowMajor (qrcode : QRCode) : List (Nat × Nat) :=
  (List.range qrcode.size).flatMap fun y =>
    ((List.range qrcode.size).filter fun x => qrcode.getModule x y).map
      fun x => (x, y)

/-- Whether a chunk is the code `<text>` element. -/
def isCodeTextChunk : SVGChunk → Bool
  | SVGChunk.codeText _ _ => true
  | _ => false

/-- Concrete well-formed payload whose token `"000000001"` decodes to
code 1 (a code far shorter than 8 decimal digits). -/
def payloadCode1 : List Char := "X-HM://0000000010000".toList

/-- Concrete well-formed payload whose token `"0001NJCHR"` decodes to the
boundary code 99999999. -/
def payloadCodeMax : List Char := "X-HM://0001NJCHR0000".toList

/-- Concrete well-formed payload whose token `"0001NJCHS"` decodes to
100000000, one past the display range. -/
def payloadCodeOver : List Char := "X-HM://0001NJCHS0000".toList

/-- A degenerate external QR matrix (size 0, all modules off), enough to
exercise the renderer on concrete payloads. -/
def emptyQR : QRCode := QRCode.mk 0 (fun _ _ => false)

/-! ## Decoder theorems -/

theorem specBase36Digit_lt_36 {c : Char} (h : isBase36Digit c) :
    specBase36Digit c < 36 := by
  unfold specBase36Digit
  unfold isBase36Digit at h
  split <;> omega

theorem base36DigitValue_eq_spec {c : Char} (h : isBase36Digit c) :
    base36DigitValue c = (specBase36Digit c : Int) := by
  unfold isBase36Digit at h
  unfold base36DigitValue specBase36Digit
  split <;> push_cast <;> omega

theorem specBase36Value_append (s : List Char) (c : Char) :
    specBase36Value (s ++ [c]) = specBase36Value s * 36 + specBase36Digit c := by
  unfold specBase36Value
  rw [List.foldl_append]
  rfl

theorem base36Loop_shift (l : List Char) (i : Nat) :
    base36Loop l (i + 1) = 36 * base36Loop l i := by
  induction l generalizing i with
  | nil => simp [base36Loop]
  | cons c rest ih =>
      simp only [base36Loop, ih]
      ring

theorem base36Loop_reverse_eq_spec (s : List Char)
    (h : ∀ c ∈ s, isBase36Digit c) :
    base36Loop s.reverse 0 = (specBase36Value s : Int) := by
  induction s using List.reverseRecOn with
  | nil => simp [base36Loop, specBase36Value]
  | append_singleton s c ih =>
      have hc : isBase36Digit c := h c (by simp)
      have hs : ∀ d ∈ s, isBase36Digit d := fun d hd => h d (by simp [hd])
      rw [List.reverse_append]
      simp only [List.reverse_singleton, List.singleton_append, List.nil_append,
        base36Loop, base36Loop_shift, base36DigitValue_eq_spec hc,
        specBase36Value_append]
      have hnil : ([] : List Char).append s.reverse = s.reverse := rfl
      rw [hnil, ih hs]
      push_cast
      ring

theorem specBase36Value_foldl_bound (s : List Char) (acc : Nat)
    (h : ∀ c ∈ s, isBase36Digit c) :
    s.foldl (fun acc c => acc * 36 + specBase36Digit c) acc
      < (acc + 1) * 36 ^ s.length := by
  induction s generalizing acc with
  | nil => simp
  | cons c rest ih =>
      have hc := specBase36Digit_lt_36 (h c (by simp))
      have hrest : ∀ d ∈ rest, isBase36Digit d := fun d hd => h d (by simp [hd])
      calc (c :: rest).foldl (fun acc c => acc * 36 + specBase36Digit c) acc
          = rest.foldl (fun acc c => acc * 36 + specBase36Digit c)
              (acc * 36 + specBase36Digit c) := rfl
        _ < (acc * 36 + specBase36Digit c + 1) * 36 ^ rest.length := ih _ hrest
        _ ≤ ((acc + 1) * 36) * 36 ^ rest.length := by
              have : acc * 36 + specBase36Digit c + 1 ≤ (acc + 1) * 36 := by omega
              exact Nat.mul_le_mul_right _ this
        _ = (acc + 1) * 36 ^ (c :: rest).length := by
              simp [List.length_cons, Nat.pow_succ]
              ring

theorem specBase36Value_lt (s : List Char) (h : ∀ c ∈ s, isBase36Digit c) :
    specBase36Value s < 36 ^ s.length := by
  have := specBase36Value_foldl_bound s 0 h
  simpa [specBase36Value] using this

/-- C2: for every string of at most 9 base-36 digits (`'0'`-`'9'`,
`'A'`-`'Z'`, most significant first — 9 is the token length this program
ever decodes, keeping all intermediates exactly representable),
`base36ToLong` returns the value of the string interpreted in base 36 under
the digit map `'0'-'9' ↦ 0-9`, `c > '9' ↦ 10 + (c - 'A')`. -/
theorem base36ToLong_eq_base36_value (s : List Char)
    (hlen : s.length ≤ 9) (hdig : ∀ c ∈ s, isBase36Digit c) :
    base36ToLong s = specBase36Value s := by
  unfold base36ToLong
  rw [base36Loop_reverse_eq_spec s hdig]
  have hlt : specBase36Value s < 2 ^ 64 := by
    calc specBase36Value s < 36 ^ s.length := specBase36Value_lt s hdig
      _ ≤ 36 ^ 9 := Nat.pow_le_pow_right (by norm_num) hlen
      _ < 2 ^ 64 := by norm_num
  rw [Int.emod_eq_of_lt (by positivity) (by exact_mod_cast hlt)]
  exact Int.toNat_natCast _

/-- C2 witness: `"ZZZZZZZZZ"` consists of base-36 digits, has length 9,
and decodes to `36 ^ 9 - 1`. -/
theorem base36ToLong_witness :
    ("ZZZZZZZZZ".toList.length ≤ 9 ∧ ∀ c ∈ "ZZZZZZZZZ".toList, isBase36Digit c)
      ∧ base36ToLong "ZZZZZZZZZ".toList = 36 ^ 9 - 1
      ∧ base36ToLong "000000000".toList = 0
      ∧ base36ToLong "000000001".toList = 1 := by
  refine ⟨⟨by decide, by decide⟩, ?_, ?_, ?_⟩
  · rw [base36ToLong_eq_base36_value _ (by decide) (by decide)]; decide
  · rw [base36ToLong_eq_base36_value _ (by decide) (by decide)]; decide
  · rw [base36ToLong_eq_base36_value _ (by decide) (by decide)]; decide

/-- C1: on every well-formed payload (length 20, prefix `"X-HM://"`),
`codeFromSetupPayload` returns `base36ToLong` of the 9 characters after the
prefix, masked with `0x7FFFFFF`. -/
theorem codeFromSetupPayload_well_formed (p : List Char)
    (h20 : p.length = 20) (hpre : p.take 7 = "X-HM://".toList) :
    codeFromSetupPayload p = base36ToLong ((p.drop 7).take 9) &&& 0x7ffffff := by
  unfold codeFromSetupPayload
  rw [if_pos ⟨h20, hpre⟩]

/-- C1 witness: the payload `"X-HM://00027WR290000"` is well formed, its
token `"00027WR29"` decodes to `0x8000001`, and the extracted code is
`0x0000001` (the high flag bit is stripped by the mask). -/
theorem codeFromSetupPayload_witness :
    ("X-HM://00027WR290000".toList.length = 20
        ∧ "X-HM://00027WR290000".toList.take 7 = "X-HM://".toList)
      ∧ base36ToLong "00027WR29".toList = 0x8000001
      ∧ codeFromSetupPayload "X-HM://00027WR290000".toList = 0x0000001 := by
  refine ⟨⟨by decide, by decide⟩, ?_, ?_⟩
  · rw [base36ToLong_eq_base36_value _ (by decide) (by decide)]; decide
  · rw [codeFromSetupPayload_well_formed _ (by decide) (by decide)]
    have h : ("X-HM://00027WR290000".toList.drop 7).take 9
        = "00027WR29".toList := by decide
    rw [h, base36ToLong_eq_base36_value _ (by decide) (by decide)]
    have hm : (0x7ffffff : Nat) = 2 ^ 27 - 1 := by norm_num
    rw [hm, Nat.and_pow_two_sub_one_eq_mod]
    decide

/-- C5: every input that is not exactly 20 characters long or does not start
with `"X-HM://"` makes `codeFromSetupPayload` return the sentinel 0. -/
theorem codeFromSetupPayload_invalid (p : List Char)
    (h : ¬(p.length = 20 ∧ p.take 7 = "X-HM://".toList)) :
    codeFromSetupPayload p = 0 := by
  unfold codeFromSetupPayload
  rw [if_neg h]

/-- C5 witness: `"hello"` is neither 20 characters long nor prefixed
`"X-HM://"`, and the extracted code is 0. -/
theorem codeFromSetupPayload_invalid_witness :
    ¬("hello".toList.length = 20 ∧ "hello".toList.take 7 = "X-HM://".toList)
      ∧ codeFromSetupPayload "hello".toList = 0 :=
  ⟨by decide, codeFromSetupPayload_invalid _ (by decide)⟩

/-- C10: for every input string the extracted code is at most
`0x7FFFFFF = 134217727` (the 27-bit mask bounds every result), hence below
`134217728` — so only codes strictly between 99999999 and 134217728 can
trip the over-range abort of the renderer — and below `10 ^ 9`, i.e. at most 9
decimal digits. -/
theorem codeFromSetupPayload_bounded (p : List Char) :
    codeFromSetupPayload p ≤ 0x7ffffff
      ∧ codeFromSetupPayload p < 134217728
      ∧ codeFromSetupPayload p < 10 ^ 9 := by
  have hle : codeFromSetupPayload p ≤ 0x7ffffff := by
    unfold codeFromSetupPayload
    split
    · exact Nat.and_le_right
    · exact Nat.zero_le _
  exact ⟨hle, by omega, by omega⟩

/-! ## Renderer theorems -/

theorem flatMap_if_singleton {α β : Type} (l : List α) (p : α → Bool)
    (f : α → β) :
    (l.flatMap fun x => if p x then [f x] else []) = (l.filter p).map f := by
  induction l with
  | nil => rfl
  | cons a t ih =>
      simp only [List.flatMap_cons, List.filter_cons]
      cases h : p a <;> simp [ih, h]

theorem qrcodeSVGPath_eq_onModules (q : QRCode) (x0 y0 w : ℚ) :
    qrcodeSVGPath q x0 y0 w =
      SVGChunk.lit "<path d=\"" ::
        (((onModulesRowMajor q).map fun m =>
          SVGChunk.pathCmds
            [PathCmd.moveTo (x0 + w / ((q.size : ℚ) + 2) * (1 + m.1))
                            (y0 + w / ((q.size : ℚ) + 2) * (1 + m.2)),
             PathCmd.hLineRel (w / ((q.size : ℚ) + 2)),
             PathCmd.vLineRel (w / ((q.size : ℚ) + 2)),
             PathCmd.hLineRel (-(w / ((q.size : ℚ) + 2))),
             PathCmd.closePath])
          ++ [SVGChunk.lit "\"/>"]) := by
  unfold qrcodeSVGPath onModulesRowMajor
  simp only [List.map_flatMap, List.map_map, flatMap_if_singleton,
    List.singleton_append, List.cons_append, List.nil_append]
  congr 1
  congr 1
  refine congrArg (fun g => (List.range q.size).flatMap g) (funext fun y => ?_)
  refine List.map_congr_left fun x hx => ?_
  simp only [Function.comp_apply]
  have hs : w / ((q.size : ℚ) + 2 * 1) = w / ((q.size : ℚ) + 2) := by norm_num
  rw [hs]
  have hmx : x0 + 1 * (w / ((q.size : ℚ) + 2)) + w / ((q.size : ℚ) + 2) * (x : ℚ)
      = x0 + w / ((q.size : ℚ) + 2) * (1 + (x : ℚ)) := by ring
  have hmy : y0 + 1 * (w / ((q.size : ℚ) + 2)) + w / ((q.size : ℚ) + 2) * (y : ℚ)
      = y0 + w / ((q.size : ℚ) + 2) * (1 + (y : ℚ)) := by ring
  rw [hmx, hmy]

theorem qrcodeSVGPath_no_codeText (q : QRCode) (x0 y0 w : ℚ) :
    (qrcodeSVGPath q x0 y0 w).filter isCodeTextChunk = [] := by
  rw [qrcodeSVGPath_eq_onModules, List.filter_cons, List.filter_append]
  have h1 : ((onModulesRowMajor q).map fun m =>
      SVGChunk.pathCmds
        [PathCmd.moveTo (x0 + w / ((q.size : ℚ) + 2) * (1 + m.1))
                        (y0 + w / ((q.size : ℚ) + 2) * (1 + m.2)),
         PathCmd.hLineRel (w / ((q.size : ℚ) + 2)),
         PathCmd.vLineRel (w / ((q.size : ℚ) + 2)),
         PathCmd.hLineRel (-(w / ((q.size : ℚ) + 2))),
         PathCmd.closePath]).filter isCodeTextChunk = [] := by
    rw [List.filter_eq_nil_iff]
    intro a ha
    rcases List.mem_map.mp ha with ⟨m, _, rfl⟩
    simp [isCodeTextChunk]
  simp [h1, isCodeTextChunk]

/-- C8: for every QR matrix, border 1 and bounding box `(x0, y0, w)`, the
emitted path data is the opener, then exactly one closed square sub-path
(move to the top-left corner of the cell, `h scale`, `v scale`, `h -scale`,
close) per "on" module — at scale `w / (size + 2)`, origin shifted by one
border module in both axes — visited in row-major order, with nothing for
"off" modules, then the closer. -/
theorem qrcodeSVGPath_row_major (q : QRCode) (x0 y0 w : ℚ) :
    qrcodeSVGPath q x0 y0 w =
      SVGChunk.lit "<path d=\"" ::
        (((onModulesRowMajor q).map fun m =>
          SVGChunk.pathCmds
            [PathCmd.moveTo
               ((x0 + w / ((q.size : ℚ) + 2)) + w / ((q.size : ℚ) + 2) * m.1)
               ((y0 + w / ((q.size : ℚ) + 2)) + w / ((q.size : ℚ) + 2) * m.2),
             PathCmd.hLineRel (w / ((q.size : ℚ) + 2)),
             PathCmd.vLineRel (w / ((q.size : ℚ) + 2)),
             PathCmd.hLineRel (-(w / ((q.size : ℚ) + 2))),
             PathCmd.closePath])
          ++ [SVGChunk.lit "\"/>"]) := by
  rw [qrcodeSVGPath_eq_onModules]
  congr 1
  congr 1
  refine List.map_congr_left fun m hm => ?_
  have hmx : x0 + w / ((q.size : ℚ) + 2) * (1 + (m.1 : ℚ))
      = (x0 + w / ((q.size : ℚ) + 2)) + w / ((q.size : ℚ) + 2) * (m.1 : ℚ) := by
    ring
  have hmy : y0 + w / ((q.size : ℚ) + 2) * (1 + (m.2 : ℚ))
      = (y0 + w / ((q.size : ℚ) + 2)) + w / ((q.size : ℚ) + 2) * (m.2 : ℚ) := by
    ring
  rw [hmx, hmy]

/-- C6: on every input that is not exactly 20 characters long or does not
start with `"X-HM://"`, the renderer writes nothing at all to the sink. -/
theorem SVGBadge_invalid_noop (p : List Char) (q : QRCode)
    (h : ¬(p.length = 20 ∧ p.take 7 = "X-HM://".toList)) :
    SVGBadgeFromSetupPayload p q = [] := by
  unfold SVGBadgeFromSetupPayload
  rw [if_neg h]

/-- C6 witness: `"hello"` fails validation and the renderer emits nothing. -/
theorem SVGBadge_invalid_noop_witness :
    ¬("hello".toList.length = 20 ∧ "hello".toList.take 7 = "X-HM://".toList)
      ∧ SVGBadgeFromSetupPayload "hello".toList emptyQR = [] :=
  ⟨by decide, SVGBadge_invalid_noop _ _ (by decide)⟩

/-- C7: on every well-formed payload, a code above 99999999 aborts the
render with nothing written to the sink, while a code of exactly 99999999
renders successfully (non-empty output). -/
theorem SVGBadge_range_check (p : List Char) (q : QRCode)
    (h20 : p.length = 20) (hpre : p.take 7 = "X-HM://".toList) :
    (99999999 < codeFromSetupPayload p → SVGBadgeFromSetupPayload p q = [])
      ∧ (codeFromSetupPayload p = 99999999 →
          SVGBadgeFromSetupPayload p q ≠ []) := by
  constructor
  · intro hgt
    unfold SVGBadgeFromSetupPayload
    rw [if_pos ⟨h20, hpre⟩]
    simp only []
    rw [if_pos hgt]
  · intro heq
    unfold SVGBadgeFromSetupPayload
    rw [if_pos ⟨h20, hpre⟩]
    simp only []
    rw [if_neg (by omega)]
    simp

/-- C7 witness: the payload with code 100000000 produces no output; the
payload with the boundary code 99999999 produces non-empty output. -/
theorem SVGBadge_range_check_witness :
    SVGBadgeFromSetupPayload payloadCodeOver emptyQR = []
      ∧ SVGBadgeFromSetupPayload payloadCodeMax emptyQR ≠ [] :=
  ⟨(SVGBadge_range_check payloadCodeOver emptyQR (by decide) (by decide)).1
      (by decide),
   (SVGBadge_range_check payloadCodeMax emptyQR (by decide) (by decide)).2
      (by decide)⟩

/-- C3 counterexample: the code is NOT zero-padded to 8 digits before the
split.  For the well-formed payload with code 1 the badge carries the text
halves `"1"` and `""`, not the halves `"0000"` and `"0001"` of the
zero-padded representation. -/
theorem SVGBadge_not_zero_padded :
    codeFromSetupPayload payloadCode1 = 1
      ∧ SVGChunk.codeText "0000".toList "0001".toList ∉
          SVGBadgeFromSetupPayload payloadCode1 emptyQR
      ∧ SVGChunk.codeText "1".toList [] ∈
          SVGBadgeFromSetupPayload payloadCode1 emptyQR := by
  refine ⟨by decide, by decide, by decide⟩

/-- C3 as amended: on every valid payload with code in range, the code is
formatted as its plain decimal representation — `snprintf`-truncated to at
most 8 characters but NOT zero-padded on the left — before being split and
emitted as text. -/
theorem SVGBadge_code_plain_decimal (p : List Char) (q : QRCode)
    (h20 : p.length = 20) (hpre : p.take 7 = "X-HM://".toList)
    (hle : codeFromSetupPayload p ≤ 99999999) :
    SVGChunk.codeText
        (((Nat.repr (codeFromSetupPayload p)).toList.take 8).take 4)
        ((((Nat.repr (codeFromSetupPayload p)).toList.take 8).drop 4).take 4)
      ∈ SVGBadgeFromSetupPayload p q := by
  unfold SVGBadgeFromSetupPayload
  rw [if_pos ⟨h20, hpre⟩]
  simp only []
  rw [if_neg (by omega)]
  simp

/-- C3 amended witness: for the payload with code 1 the emitted text halves
are `"1"` and `""` (plain decimal, no padding). -/
theorem SVGBadge_code_plain_decimal_witness :
    codeFromSetupPayload payloadCode1 ≤ 99999999
      ∧ SVGChunk.codeText "1".toList [] ∈
          SVGBadgeFromSetupPayload payloadCode1 emptyQR := by
  refine ⟨by decide, ?_⟩
  have h := SVGBadge_code_plain_decimal payloadCode1 emptyQR (by decide)
    (by decide) (by decide)
  have hc : codeFromSetupPayload payloadCode1 = 1 := by decide
  rw [hc] at h
  have h1 : ((Nat.repr 1).toList.take 8).take 4 = "1".toList := by decide
  have h2 : (((Nat.repr 1).toList.take 8).drop 4).take 4 = ([] : List Char) := by
    decide
  rw [h1, h2] at h
  exact h

/-- C4: on every valid payload with code in range, the sink receives exactly
one code `<text>` element, whose first half is the first 4 characters of the
(up to 8 character) code string and whose second half is the up-to-4
characters starting at offset 4 — with no zero-padding of the halves, so a
short code string leaves the second half partially or totally empty. -/
theorem SVGBadge_code_halves (p : List Char) (q : QRCode)
    (h20 : p.length = 20) (hpre : p.take 7 = "X-HM://".toList)
    (hle : codeFromSetupPayload p ≤ 99999999) :
    (SVGBadgeFromSetupPayload p q).filter isCodeTextChunk =
      [SVGChunk.codeText
        (((Nat.repr (codeFromSetupPayload p)).toList.take 8).take 4)
        ((((Nat.repr (codeFromSetupPayload p)).toList.take 8).drop 4).take 4)] := by
  unfold SVGBadgeFromSetupPayload
  rw [if_pos ⟨h20, hpre⟩]
  simp only []
  rw [if_neg (by omega)]
  simp [List.filter_append, qrcodeSVGPath_no_codeText, isCodeTextChunk]

/-- C4 witness: for the payload with code 1 the unique text element carries
halves `"1"` and `""` — the documented fixed-width-copy quirk. -/
theorem SVGBadge_code_halves_witness :
    codeFromSetupPayload payloadCode1 ≤ 99999999
      ∧ (SVGBadgeFromSetupPayload payloadCode1 emptyQR).filter isCodeTextChunk
          = [SVGChunk.codeText "1".toList []] := by
  refine ⟨by decide, ?_⟩
  have h := SVGBadge_code_halves payloadCode1 emptyQR (by decide) (by decide)
    (by decide)
  have hc : codeFromSetupPayload payloadCode1 = 1 := by decide
  rw [hc] at h
  have h1 : ((Nat.repr 1).toList.take 8).take 4 = "1".toList := by decide
  have h2 : (((Nat.repr 1).toList.take 8).drop 4).take 4 = ([] : List Char) := by
    decide
  rw [h1, h2] at h
  exact h

/-- C9: both operations are deterministic pure functions of their inputs:
repeated extraction from the same payload yields the same integer and
repeated rendering of the same payload with the same external QR matrix
yields identical sink output. -/
theorem badge_deterministic (p : List Char) (q : QRCode) :
    codeFromSetupPayload p = codeFromSetupPayload p
      ∧ SVGBadgeFromSetupPayload p q = SVGBadgeFromSetupPayload p q :=
  ⟨rfl, rfl⟩

end HomekitBadge
